import Mathlib

/-!
Verification development for the hospital multi-agent negotiation core.

The definitions below are a shallow embedding of
`hospital_agent/services/multi_agent_service.py` (agent analysis, the
orchestrator generator `initiate_negotiation`, the decision step),
`hospital_agent/api/routes/multi_agent.py` (the SSE stream wrapper), and
`hospital_agent/services/langgraph_negotiation_service.py` (the no-LLM
fallback paths of `_evaluate_offers` and `_negotiate`).

Modelling conventions:
* `json.loads` output is the inductive `Json` type; integers and floats
  are separate constructors because Python's `*` distinguishes them, and
  floats are modelled as exact rationals (the amounts in the claims are
  exactly representable, and the fallback arithmetic `x - x * 0.05` is
  exact at those inputs).
* The external reasoning oracle (OpenAI / Gemini call plus JSON
  extraction) is a parameter of every run, given as an `OracleResult`:
  the call may raise (`failure`), return text that is not valid JSON
  (`badJson`), or return a parsed JSON value (`ok`).
* Python exceptions escaping the orchestrator generator are modelled as
  an `Option String` in the run outcome (`some msg` when the generator
  aborts); the exception text is representative (`KeyError: k` for a
  missing dict key, `AttributeError: get` for `.get` on a non-dict, a
  TypeError when the decision prompt multiplies non-multiplicable offer
  fields).
* Nondeterministic environment values (uuid4 ids, wall-clock timestamps,
  pacing sleeps) carry no claim content and are omitted.
-/

/-- A JSON value as produced by Python's `json.loads`. Integer and
floating-point literals are kept apart because Python's `*` treats them
differently (`"5" * 10` is sequence repetition, `"5" * 1.0` raises
TypeError); floats are modelled as exact rationals. -/
inductive Json where
  | null
  | bool (b : Bool)
  | int (n : ℤ)
  | float (q : ℚ)
  | str (s : String)
  | arr (elems : List Json)
  | obj (fields : List (String × Json))

/-- Python truthiness of a JSON value (`if analysis.get(...)`). -/
def Json.truthy : Json → Bool
  | .null => false
  | .bool b => b
  | .int n => decide (n ≠ 0)
  | .float q => decide (q ≠ 0)
  | .str s => decide (s ≠ "")
  | .arr l => !l.isEmpty
  | .obj f => !f.isEmpty

/-- Truthiness of `dict.get(key)` (missing key gives `None`, falsy). -/
def optTruthy : Option Json → Bool
  | none => false
  | some j => j.truthy

/-- Field access on a JSON object; `none` when the value is not an object
or the key is absent. -/
def Json.getField : Json → String → Option Json
  | .obj fields, k => fields.lookup k
  | _, _ => none

/-- Whether a JSON-decoded value is numeric for Python arithmetic
(bool is a subclass of int). -/
def Json.isNum : Json → Bool
  | .bool _ => true
  | .int _ => true
  | .float _ => true
  | _ => false

/-- Whether a JSON-decoded value behaves as a Python int under `*`
(bool is a subclass of int); sequences may be repeated only by these. -/
def Json.isIntLike : Json → Bool
  | .bool _ => true
  | .int _ => true
  | _ => false

/-- Whether a JSON-decoded value is a Python sequence under `*`
(str or list). -/
def Json.isSeq : Json → Bool
  | .str _ => true
  | .arr _ => true
  | _ => false

/-- Whether Python's `x * y` is defined for two JSON-decoded values:
number times number, or sequence repetition by an int (in either
order). Every other combination raises TypeError, for example
str * str, str * float, None * anything, dict * anything. -/
def canMul (a b : Json) : Bool :=
  (a.isNum && b.isNum) || (a.isSeq && b.isIntLike) || (a.isIntLike && b.isSeq)

/-- Outcome of one oracle invocation as seen by the caller after the
markdown-fence extraction step: the API call raised or timed out
(`failure`), the returned content failed `json.loads` (`badJson`), or it
parsed to a JSON value (`ok`). -/
inductive OracleResult where
  | failure (msg : String)
  | badJson (raw : String)
  | ok (j : Json)

/-- Fallback judgment produced by `HospitalAgent.analyze_request` when the
oracle content fails JSON parsing (source lines 185-192). -/
def denialInvalidFormat : Json :=
  .obj [("can_help", .bool false),
        ("reasoning", .str "Invalid response format"),
        ("confidence", .int 0)]

/-- Fallback judgment produced by `HospitalAgent.analyze_request` when the
oracle call raises any other exception (source lines 193-199). -/
def denialSystemError (msg : String) : Json :=
  .obj [("can_help", .bool false),
        ("reasoning", .str ("System error: " ++ msg)),
        ("confidence", .int 0)]

/-- Embedding of `HospitalAgent.analyze_request`: on success the parsed
JSON is returned unchanged (no field validation happens in the source);
both failure modes are converted to a denial dict. The Lean function is
total, which reflects that no exception leaves the Python method. -/
def analyze_request : OracleResult → Json
  | .failure msg => denialSystemError msg
  | .badJson _ => denialInvalidFormat
  | .ok j => j

/-- Fallback returned by `HospitalAgent.negotiate_offer` on any failure
(source lines 251-253; one catch-all handler for both parse errors and
API exceptions). -/
def noAdjust : Json := .obj [("adjust_offer", .bool false)]

/-- Embedding of `HospitalAgent.negotiate_offer`: parsed JSON is returned
unchanged, any failure yields the no-adjustment dict. -/
def negotiate_offer : OracleResult → Json
  | .failure _ => noAdjust
  | .badJson _ => noAdjust
  | .ok j => j

/-- Event kinds emitted on the progress stream (source `yield` statements
plus the `error` event of the SSE wrapper). -/
inductive EventKind where
  | negotiation_initiated
  | broadcasting_request
  | agent_analyzing
  | offer_received
  | offer_declined
  | negotiation_round_started
  | offer_adjusted
  | making_decision
  | negotiation_completed
  | error
deriving DecidableEq

/-- A progress-stream event: its kind, together with the agent name (for
per-participant events) or the exception message (for `error` events). -/
abbrev Event := EventKind × String

/-- Session status values. The source docstring of `NegotiationSession`
lists "failed" as a possible status, so it is part of the type, even
though no assignment in the source ever sets it. -/
inductive Status where
  | initiated
  | broadcasting
  | collecting_responses
  | negotiating
  | deciding
  | completed
  | failed
deriving DecidableEq

/-- Position of a status in the ordered phase list. -/
def Status.phaseIdx : Status → ℕ
  | .initiated => 0
  | .broadcasting => 1
  | .collecting_responses => 2
  | .negotiating => 3
  | .deciding => 4
  | .completed => 5
  | .failed => 6

/-- Embedding of the `ResourceOffer` dataclass (fields relevant to the
claims; `quantity` and `price_per_unit` are raw JSON values because the
source stores `analysis["quantity_available"]` and
`analysis["proposed_price_per_unit"]` without a type check). -/
structure ResourceOffer where
  hospital_id : String
  hospital_name : String
  resource_type : String
  quantity : Json
  price_per_unit : Json
  conditions : Json

/-- One participant agent of a run: its identity together with the
oracle outcomes its two oracle invocations would produce in this run. -/
structure Participant where
  hospital_id : String
  hospital_name : String
  analyzeResult : OracleResult
  negotiateResult : OracleResult

/-- One iteration of the collection loop (source lines 419-464): yield
`agent_analyzing`, run the analysis, then either construct and append an
offer (`offer_received`), yield `offer_declined`, or raise.
`.error msg` models a Python exception escaping the generator:
`analysis.get` on a non-dict raises `AttributeError`, and
`analysis["quantity_available"]` / `analysis["proposed_price_per_unit"]`
raise `KeyError` when the key is absent. -/
def collectOne (resource_type : String) (p : Participant) :
    List Event × Except String (Option ResourceOffer) :=
  let analysis := analyze_request p.analyzeResult
  let analyzing : Event := (EventKind.agent_analyzing, p.hospital_name)
  match analysis with
  | .obj fields =>
    if optTruthy (fields.lookup "can_help") then
      match fields.lookup "quantity_available" with
      | none => ([analyzing], .error "KeyError: quantity_available")
      | some qty =>
        match fields.lookup "proposed_price_per_unit" with
        | none => ([analyzing], .error "KeyError: proposed_price_per_unit")
        | some price =>
          let offer : ResourceOffer :=
            ⟨p.hospital_id, p.hospital_name, resource_type, qty, price,
             (fields.lookup "conditions").getD (.arr [])⟩
          ([analyzing, (EventKind.offer_received, p.hospital_name)], .ok (some offer))
    else
      ([analyzing, (EventKind.offer_declined, p.hospital_name)], .ok none)
  | _ => ([analyzing], .error "AttributeError: get")

/-- The collection phase over all participants, in iteration order.
Returns the emitted events, the offers appended to the session, and the
exception that aborted the loop, if any. -/
def collectLoop (resource_type : String) :
    List Participant → List Event × List ResourceOffer × Option String
  | [] => ([], [], none)
  | p :: rest =>
    match collectOne resource_type p with
    | (evs, .error msg) => (evs, [], some msg)
    | (evs, .ok oOffer) =>
      let (evs2, offers2, exn2) := collectLoop resource_type rest
      (evs ++ evs2, oOffer.toList ++ offers2, exn2)

/-- Whether the agent owning `o` requests an adjustment in the
negotiation round (truthiness of `negotiation_result.get("adjust_offer")`). -/
def adjustRequested (parts : List Participant) (o : ResourceOffer) : Bool :=
  match parts.find? (fun p => p.hospital_id == o.hospital_id) with
  | none => false
  | some p =>
    match negotiate_offer p.negotiateResult with
    | .obj fields => optTruthy (fields.lookup "adjust_offer")
    | _ => false

/-- The negotiation round loop over the collected offers (source lines
476-486): for each offer, invoke the owning agent's `negotiate_offer`; if
the result's `adjust_offer` is truthy, yield `offer_adjusted`. The
source never writes back to the offer. `negotiation_result.get` on a
non-dict JSON value raises `AttributeError`; a missing agent id would
raise `KeyError`. -/
def negotiateLoop (parts : List Participant) :
    List ResourceOffer → List Event × Option String
  | [] => ([], none)
  | o :: rest =>
    match parts.find? (fun p => p.hospital_id == o.hospital_id) with
    | none => ([], some "KeyError: agent")
    | some p =>
      match negotiate_offer p.negotiateResult with
      | .obj fields =>
        let evs :=
          if optTruthy (fields.lookup "adjust_offer") then
            [((EventKind.offer_adjusted : EventKind), p.hospital_name)]
          else []
        let (evs2, exn2) := negotiateLoop parts rest
        (evs ++ evs2, exn2)
      | _ => ([], some "AttributeError: get")

/-- The decision returned by `_make_decision` when the session holds no
offers (source lines 510-515). -/
def noOffersDecision : Json :=
  .obj [("success", .bool false),
        ("reason", .str "No offers received"),
        ("recommendations",
          .arr [.str "Try increasing budget", .str "Reduce quantity",
                .str "Extend timeline"])]

/-- The decision returned by `_make_decision` when the decision oracle
call fails (source lines 573-578). -/
def decisionSystemError : Json :=
  .obj [("success", .bool false),
        ("reason", .str "System error during decision making")]

/-- Embedding of `MultiAgentCoordinationService._make_decision` (source
lines 507-578). With no offers it returns the failure decision before
building any prompt. Otherwise the prompt f-string (lines 517-547) is
evaluated BEFORE the try at line 549 and computes
`o.quantity * o.price_per_unit` for every offer on the raw, unvalidated
JSON offer fields; when some offer's pair is not multiplicable in
Python, a TypeError escapes the method (the message text is
representative). Only then is the oracle consulted, with its own
catch-all fallback. -/
def make_decision (offers : List ResourceOffer) (oracle : OracleResult) :
    Except String Json :=
  if offers.isEmpty then .ok noOffersDecision
  else if offers.all (fun o => canMul o.quantity o.price_per_unit) then
    match oracle with
    | .ok j => .ok j
    | .failure _ => .ok decisionSystemError
    | .badJson _ => .ok decisionSystemError
  else .error "TypeError: unsupported operand type(s) for *"

/-- Observable outcome of one run of the orchestrator generator: the
events yielded, the session statuses in assignment order, the session's
final offer list and status, the exception that escaped the generator
(if any), and the stored `final_agreement`. -/
structure RunOutcome where
  events : List Event
  statusTrace : List Status
  offers : List ResourceOffer
  finalStatus : Status
  exn : Option String
  final_agreement : Option Json

/-- The deciding and completed phases (source lines 488-505): the status
is set to deciding and making_decision is yielded BEFORE `_make_decision`
is awaited, so a TypeError raised while that method builds its prompt
escapes the generator with the session left in deciding, the
making_decision event already emitted and no final agreement stored; a
successful decision completes the session and yields
negotiation_completed. -/
def finishRun (evs : List Event) (trace : List Status)
    (offers : List ResourceOffer) (decisionOracle : OracleResult) : RunOutcome :=
  match make_decision offers decisionOracle with
  | .error msg =>
    ⟨evs ++ [(EventKind.making_decision, "")],
     trace ++ [Status.deciding],
     offers, Status.deciding, some msg, none⟩
  | .ok decision =>
    ⟨evs ++ [(EventKind.making_decision, ""), (EventKind.negotiation_completed, "")],
     trace ++ [Status.deciding, Status.completed],
     offers, Status.completed, none, some decision⟩

/-- Embedding of `MultiAgentCoordinationService.initiate_negotiation`
(source lines 349-505), parameterised by the oracle outcomes of the run.
The generator has no exception handler of its own, so an exception in a
phase ends the run with the session left in that phase's status. -/
def initiate_negotiation (parts : List Participant) (resource_type : String)
    (decisionOracle : OracleResult) : RunOutcome :=
  let preEvents : List Event :=
    [(EventKind.negotiation_initiated, ""), (EventKind.broadcasting_request, "")]
  let preTrace : List Status :=
    [Status.initiated, Status.broadcasting, Status.collecting_responses]
  match collectLoop resource_type parts with
  | (collectEvents, offers, some msg) =>
    ⟨preEvents ++ collectEvents, preTrace, offers,
     Status.collecting_responses, some msg, none⟩
  | (collectEvents, offers, none) =>
    if 1 < offers.length then
      let evs2 := preEvents ++ collectEvents ++
        [(EventKind.negotiation_round_started, "")]
      let trace2 := preTrace ++ [Status.negotiating]
      match negotiateLoop parts offers with
      | (negEvents, some msg) =>
        ⟨evs2 ++ negEvents, trace2, offers, Status.negotiating, some msg, none⟩
      | (negEvents, none) =>
        finishRun (evs2 ++ negEvents) trace2 offers decisionOracle
    else
      finishRun (preEvents ++ collectEvents) preTrace offers decisionOracle

/-- The SSE wrapper of the route (`multi_agent.py` lines 46-65): events
of the generator are forwarded as they arrive; an exception escaping the
generator is caught and converted into a final `error` event carrying
the exception's message. (The wrapper's extra `stream_complete` marker
is not one of the enumerated progress-event kinds and is omitted.) -/
def streamEvents (r : RunOutcome) : List Event :=
  match r.exn with
  | some msg => r.events ++ [(EventKind.error, msg)]
  | none => r.events

/-- Whether an event is one of the two terminal kinds of the progress
stream contract. -/
def isTerminal (e : Event) : Bool :=
  e.1 == EventKind.negotiation_completed || e.1 == EventKind.error

/-- An offer as handled by `LangGraphNegotiationService._evaluate_offers`:
a JSON dict from the cache, of which the ranking fallback reads only the
`total_price` field (`x.get("total_price", float('inf'))`); `none`
models a missing key. -/
structure EvalOffer where
  hospital_id : String
  total_price : Option ℚ
deriving DecidableEq

/-- Sort key of the ranking fallback: the offer's `total_price`, with a
missing field reading as positive infinity. -/
def offerKey (o : EvalOffer) : WithTop ℚ :=
  match o.total_price with
  | some q => (q : WithTop ℚ)
  | none => ⊤

/-- The comparison used by Python's `sorted(offers, key=...)`. -/
def offerLe (a b : EvalOffer) : Prop := offerKey a ≤ offerKey b

instance : DecidableRel offerLe := fun a b =>
  inferInstanceAs (Decidable (offerKey a ≤ offerKey b))

instance : IsTotal EvalOffer offerLe := ⟨fun a b => le_total (offerKey a) (offerKey b)⟩

instance : IsTrans EvalOffer offerLe := ⟨fun _ _ _ h h2 => le_trans h h2⟩

/-- Embedding of the no-oracle ranking fallback of
`LangGraphNegotiationService._evaluate_offers` (source lines 310-322 and
369-377): a stable ascending sort by the `total_price` key.
`List.insertionSort` has exactly the semantics of Python's stable
`sorted`. -/
def rankOffersFallback (offers : List EvalOffer) : List EvalOffer :=
  List.insertionSort offerLe offers

/-- The fallback `top_choice`: `sorted_offers[0] if sorted_offers else None`. -/
def topChoiceFallback (offers : List EvalOffer) : Option EvalOffer :=
  (rankOffersFallback offers).head?

/-- One entry of `negotiation_rounds` in the no-LLM branch of
`LangGraphNegotiationService._negotiate` (source lines 404-414). -/
structure NegotiationRound where
  round : ℕ
  our_offer : ℚ
  their_response : ℚ
  accepted : Bool
deriving DecidableEq

/-- One round of the no-LLM negotiation fallback: reduce the current
price by 5 percent, floor at the target, accept when the round is the
third or the price reached the target. -/
def fallbackRound (current target : ℚ) (round_num : ℕ) : NegotiationRound :=
  let reduction := current * (5 / 100)
  let new_price := max (current - reduction) target
  ⟨round_num, new_price, new_price,
   (round_num == 3) || decide (new_price ≤ target)⟩

/-- The `for round_num in range(1, 4)` loop with its early `break` on
acceptance; `current_price` is updated to the round's response price. -/
def runRounds (target : ℚ) : ℚ → List ℕ → List NegotiationRound
  | _, [] => []
  | current, n :: rest =>
    let rd := fallbackRound current target n
    if rd.accepted then [rd]
    else rd :: runRounds target rd.their_response rest

/-- Embedding of the no-LLM branch of
`LangGraphNegotiationService._negotiate` (source lines 396-477): the
round list produced from a starting price and the requester's computed
target price. -/
def negotiate_fallback (start target : ℚ) : List NegotiationRound :=
  runRounds target start [1, 2, 3]

/-- Case-insensitive substring test on character lists, modelling
Python's `needle in hay.lower()` for the ASCII strings involved. -/
def containsSub : List Char → List Char → Bool
  | hay, needle =>
    if needle.isPrefixOf hay then true
    else
      match hay with
      | [] => false
      | _ :: t => containsSub t needle

/-- Lower-cased character list of a string (`str.lower()` on ASCII). -/
def lowerChars (s : String) : List Char := s.data.map Char.toLower

/-- Embedding of `HospitalAgent._generate_personality` (source lines
95-102): the personality is a function of the hospital's name and of
`hospital_data.get("type", "")`. -/
def generate_personality (hospital_name : String) (hospital_type : String) : String :=
  if containsSub (lowerChars hospital_name) "teaching".data then
    "academic_collaborative"
  else if containsSub (lowerChars hospital_type) "private".data then
    "business_oriented"
  else
    "community_focused"

/-- Whether a participant's analysis declines the request: the analysis
is a dict whose `can_help` entry is falsy (so the orchestrator takes the
`offer_declined` branch). -/
def declinesB (p : Participant) : Bool :=
  match analyze_request p.analyzeResult with
  | .obj fields => !optTruthy (fields.lookup "can_help")
  | _ => false

/-- The event block of the collection phase for participants paired with
their response kind: `agent_analyzing` followed by the response event,
in participant iteration order. -/
def collectBlocks : List (Participant × EventKind) → List Event
  | [] => []
  | (p, k) :: rest =>
    (EventKind.agent_analyzing, p.hospital_name) ::
      (k, p.hospital_name) :: collectBlocks rest

/-- C2: for every oracle invocation failure (timeout or exception,
modelled by `OracleResult.failure`, and invalid JSON, modelled by
`OracleResult.badJson`), `analyze_request` returns a judgment whose
`can_help` field is `false` and whose `confidence` field is `0`, and
`negotiate_offer` returns the no-adjustment judgment with
`adjust_offer = false`. Both embedding functions are total, reflecting
that no exception passes the Agent boundary in the source. -/
theorem C2_oracle_failure_safe_defaults (msg raw : String) :
    (analyze_request (.failure msg)).getField "can_help" = some (.bool false) ∧
    (analyze_request (.failure msg)).getField "confidence" = some (.int 0) ∧
    (analyze_request (.badJson raw)).getField "can_help" = some (.bool false) ∧
    (analyze_request (.badJson raw)).getField "confidence" = some (.int 0) ∧
    negotiate_offer (.failure msg) = noAdjust ∧
    negotiate_offer (.badJson raw) = noAdjust ∧
    noAdjust.getField "adjust_offer" = some (.bool false) :=
  ⟨rfl, rfl, rfl, rfl, rfl, rfl, rfl⟩

/-- C3: the code does NOT validate the fields of the returned judgment.
An oracle response that is the valid JSON object with the single field
`can_help = true` is returned unchanged by `analyze_request` (no
conservative denial is synthesized), and the orchestrator's offer
construction then raises a `KeyError` on `quantity_available`, aborting
the run inside the collection phase. -/
theorem C3_no_field_validation_keyerror :
    analyze_request (.ok (.obj [("can_help", .bool true)])) =
      .obj [("can_help", .bool true)] ∧
    (analyze_request (.ok (.obj [("can_help", .bool true)]))).getField "can_help" =
      some (.bool true) ∧
    (collectOne "ventilators"
      ⟨"HOSP_B", "Max Super Specialty Hospital",
       .ok (.obj [("can_help", .bool true)]), .failure "down"⟩).2 =
      .error "KeyError: quantity_available" ∧
    (initiate_negotiation
      [⟨"HOSP_B", "Max Super Specialty Hospital",
        .ok (.obj [("can_help", .bool true)]), .failure "down"⟩]
      "ventilators" (.failure "down")).exn =
      some "KeyError: quantity_available" ∧
    (initiate_negotiation
      [⟨"HOSP_B", "Max Super Specialty Hospital",
        .ok (.obj [("can_help", .bool true)]), .failure "down"⟩]
      "ventilators" (.failure "down")).finalStatus =
      Status.collecting_responses :=
  ⟨rfl, rfl, rfl, rfl, rfl⟩

/-- C10: the personality classifier is a total deterministic function of
the hospital's name and type string; it returns one of exactly three
values, returns academic_collaborative iff the lower-cased name contains
"teaching", otherwise business_oriented iff the lower-cased type
contains "private", otherwise community_focused; and the demo hospital
with name "Fortis Medical Centre" and type "Private Teaching Hospital"
is classified business_oriented. -/
theorem C10_personality_classifier (name ty : String) :
    (generate_personality name ty = "academic_collaborative" ∨
     generate_personality name ty = "business_oriented" ∨
     generate_personality name ty = "community_focused") ∧
    (generate_personality name ty = "academic_collaborative" ↔
      containsSub (lowerChars name) "teaching".data = true) ∧
    (containsSub (lowerChars name) "teaching".data = false →
      (generate_personality name ty = "business_oriented" ↔
        containsSub (lowerChars ty) "private".data = true)) ∧
    (containsSub (lowerChars name) "teaching".data = false →
      containsSub (lowerChars ty) "private".data = false →
      generate_personality name ty = "community_focused") ∧
    generate_personality "Fortis Medical Centre" "Private Teaching Hospital" =
      "business_oriented" := by
  refine ⟨?_, ?_, ?_, ?_, by decide⟩ <;>
    cases hT : containsSub (lowerChars name) "teaching".data <;>
      cases hP : containsSub (lowerChars ty) "private".data <;>
        simp [generate_personality, hT, hP]

/-- C10 witness: the classifier applied to the demo hospital HOSP_A
(name "Apollo City Hospital", type "Private Multi-specialty"), whose
name lacks "teaching", yields business_oriented. -/
theorem C10_personality_classifier_witness :
    containsSub (lowerChars "Apollo City Hospital") "teaching".data = false ∧
    (generate_personality "Apollo City Hospital" "Private Multi-specialty" =
        "business_oriented" ↔
      containsSub (lowerChars "Private Multi-specialty") "private".data = true) :=
  ⟨by decide,
   (C10_personality_classifier "Apollo City Hospital"
      "Private Multi-specialty").2.2.1 (by decide)⟩

/-- C8: the no-oracle offer ranking of `_evaluate_offers` is a stable
ascending sort by the total_price key: the result is sorted, is a
permutation of the input, any pair already in key order (ties included)
keeps its relative order, and for the offers B(total 15000) and
C(total 31500) the top choice is B. -/
theorem C8_fallback_ranking_stable_sort :
    (∀ offers : List EvalOffer,
      List.Sorted offerLe (rankOffersFallback offers)) ∧
    (∀ offers : List EvalOffer, List.Perm (rankOffersFallback offers) offers) ∧
    (∀ (a b : EvalOffer) (offers : List EvalOffer),
      List.Sublist [a, b] offers → offerLe a b →
        List.Sublist [a, b] (rankOffersFallback offers)) ∧
    rankOffersFallback [⟨"B", some 15000⟩, ⟨"C", some 31500⟩] =
      [⟨"B", some 15000⟩, ⟨"C", some 31500⟩] ∧
    topChoiceFallback [⟨"B", some 15000⟩, ⟨"C", some 31500⟩] =
      some ⟨"B", some 15000⟩ := by
  refine ⟨List.sorted_insertionSort offerLe, List.perm_insertionSort offerLe,
    ?_, by decide, by decide⟩
  intro a b offers hsub hle
  exact List.pair_sublist_insertionSort hle hsub

/-- C8 witness: two offers tied at total price 15000 keep their response
order through the fallback sort. -/
theorem C8_fallback_ranking_stable_sort_witness :
    List.Sublist [(⟨"B", some 15000⟩ : EvalOffer), ⟨"Y", some 15000⟩]
        [⟨"B", some 15000⟩, ⟨"Y", some 15000⟩, ⟨"C", some 31500⟩] ∧
    offerLe ⟨"B", some 15000⟩ ⟨"Y", some 15000⟩ ∧
    List.Sublist [(⟨"B", some 15000⟩ : EvalOffer), ⟨"Y", some 15000⟩]
      (rankOffersFallback [⟨"B", some 15000⟩, ⟨"Y", some 15000⟩, ⟨"C", some 31500⟩]) :=
  ⟨List.sublist_append_left _ _,
   by decide,
   C8_fallback_ranking_stable_sort.2.2.1 _ _ _
     (List.sublist_append_left
       ([⟨"B", some 15000⟩, ⟨"Y", some 15000⟩] : List EvalOffer)
       [⟨"C", some 31500⟩])
     (by decide)⟩

/-- C9: in the no-oracle negotiation fallback, every round's price is
the previous price reduced by five percent and floored at the target;
the loop performs at most three rounds; any round numbered 3 is
force-accepted regardless of the target; and for starting price 100000
with a target at most 90250 the first two round prices are exactly
95000 and 90250. -/
theorem C9_fallback_round_prices :
    (∀ current target : ℚ, ∀ n : ℕ,
      (fallbackRound current target n).our_offer =
        max (current - current * (5 / 100)) target) ∧
    (∀ start target : ℚ, (negotiate_fallback start target).length ≤ 3) ∧
    (∀ start target : ℚ, ∀ r ∈ negotiate_fallback start target,
      r.round = 3 → r.accepted = true) ∧
    (∀ start target : ℚ, (negotiate_fallback start target).head? =
      some (fallbackRound start target 1)) ∧
    (∀ target : ℚ, target ≤ 90250 →
      ((negotiate_fallback 100000 target).map NegotiationRound.our_offer).take 2 =
        [95000, 90250]) := by
  refine ⟨fun _ _ _ => rfl, ?_, ?_, ?_, ?_⟩
  · intro s t
    simp only [negotiate_fallback, runRounds]
    split
    · simp
    · split
      · simp
      · split <;> simp
  · intro s t r hr h3
    simp only [negotiate_fallback, runRounds] at hr
    split at hr
    · rename_i hacc
      simp only [List.mem_singleton] at hr
      subst hr
      exact hacc
    · simp only [List.mem_cons] at hr
      rcases hr with hr | hr
      · subst hr
        simp only [fallbackRound] at h3
        omega
      · split at hr
        · rename_i hacc
          simp only [List.mem_singleton] at hr
          subst hr
          exact hacc
        · simp only [List.mem_cons] at hr
          rcases hr with hr | hr
          · subst hr
            simp only [fallbackRound] at h3
            omega
          · split at hr
            · rename_i hacc
              simp only [List.mem_singleton] at hr
              subst hr
              exact hacc
            · rename_i hacc
              simp [fallbackRound] at hacc
  · intro s t
    simp only [negotiate_fallback, runRounds]
    split <;> simp
  · intro t ht
    have h1 : fallbackRound 100000 t 1 = ⟨1, 95000, 95000, false⟩ := by
      have hm : max ((100000 : ℚ) - 100000 * (5 / 100)) t = 95000 := by
        rw [show ((100000 : ℚ) - 100000 * (5 / 100)) = 95000 by norm_num]
        exact max_eq_left (ht.trans (by norm_num))
      simp only [fallbackRound, hm]
      have hacc : decide ((95000 : ℚ) ≤ t) = false := by
        rw [decide_eq_false_iff_not]
        intro hle
        linarith
      simp [hacc]
    have h2 : fallbackRound 95000 t 2 =
        ⟨2, 90250, 90250, decide ((90250 : ℚ) ≤ t)⟩ := by
      have hm : max ((95000 : ℚ) - 95000 * (5 / 100)) t = 90250 := by
        rw [show ((95000 : ℚ) - 95000 * (5 / 100)) = 90250 by norm_num]
        exact max_eq_left ht
      simp only [fallbackRound, hm]
      simp
    simp only [negotiate_fallback, runRounds, h1]
    norm_num
    rw [h2]
    cases hacc2 : decide ((90250 : ℚ) ≤ t) <;> simp [runRounds]

/-- C9 witness: with starting price 100000 and target price 0 the first
two fallback round prices are 95000 and 90250. -/
theorem C9_fallback_round_prices_witness :
    (0 : ℚ) ≤ 90250 ∧
    ((negotiate_fallback 100000 0).map NegotiationRound.our_offer).take 2 =
      [95000, 90250] :=
  ⟨by decide, C9_fallback_round_prices.2.2.2.2 0 (by decide)⟩

theorem collectOne_cases (rt : String) (p : Participant) :
    collectOne rt p = ([(EventKind.agent_analyzing, p.hospital_name),
        (EventKind.offer_declined, p.hospital_name)], .ok none) ∨
    (∃ o : ResourceOffer,
      collectOne rt p = ([(EventKind.agent_analyzing, p.hospital_name),
        (EventKind.offer_received, p.hospital_name)], .ok (some o))) ∨
    (∃ m : String,
      collectOne rt p = ([(EventKind.agent_analyzing, p.hospital_name)], .error m)) := by
  simp only [collectOne]
  split
  · split
    · split
      · exact Or.inr (Or.inr ⟨_, rfl⟩)
      · split
        · exact Or.inr (Or.inr ⟨_, rfl⟩)
        · exact Or.inr (Or.inl ⟨_, rfl⟩)
    · exact Or.inl rfl
  all_goals exact Or.inr (Or.inr ⟨_, rfl⟩)

theorem collectOne_declined (rt : String) (p : Participant) (h : declinesB p = true) :
    collectOne rt p = ([(EventKind.agent_analyzing, p.hospital_name),
      (EventKind.offer_declined, p.hospital_name)], .ok none) := by
  unfold declinesB at h
  simp only [collectOne]
  cases ha : analyze_request p.analyzeResult with
  | obj fields =>
    rw [ha] at h
    simp only [Bool.not_eq_true'] at h
    simp [h]
  | null => rw [ha] at h; simp at h
  | bool b => rw [ha] at h; simp at h
  | int n => rw [ha] at h; simp at h
  | float q => rw [ha] at h; simp at h
  | str s => rw [ha] at h; simp at h
  | arr l => rw [ha] at h; simp at h

theorem collectLoop_all_decline (rt : String) :
    ∀ ps : List Participant, (∀ p ∈ ps, declinesB p = true) →
      (collectLoop rt ps).2.1 = [] ∧ (collectLoop rt ps).2.2 = none := by
  intro ps
  induction ps with
  | nil => intro _; exact ⟨rfl, rfl⟩
  | cons p rest ih =>
    intro h
    have hp := collectOne_declined rt p (h p (List.mem_cons_self p rest))
    rcases hrec : collectLoop rt rest with ⟨evs2, offers2, exn2⟩
    have hr := ih (fun q hq => h q (List.mem_cons_of_mem p hq))
    rw [hrec] at hr
    simp only [collectLoop, hp, hrec]
    simpa using hr

theorem collectLoop_shape (rt : String) :
    ∀ ps : List Participant, (collectLoop rt ps).2.2 = none →
      ∃ resp : List EventKind, resp.length = ps.length ∧
        (∀ k ∈ resp, k = EventKind.offer_received ∨ k = EventKind.offer_declined) ∧
        (collectLoop rt ps).1 = collectBlocks (ps.zip resp) := by
  intro ps
  induction ps with
  | nil => intro _; exact ⟨[], rfl, by simp, rfl⟩
  | cons p rest ih =>
    intro h
    rcases hrec : collectLoop rt rest with ⟨evs2, offers2, exn2⟩
    rcases collectOne_cases rt p with hc | ⟨o, hc⟩ | ⟨m, hc⟩
    · simp only [collectLoop, hc, hrec] at h ⊢
      obtain ⟨resp, hlen, hmem, hev⟩ := ih (by rw [hrec]; exact h)
      rw [hrec] at hev
      have hev2 : evs2 = collectBlocks (rest.zip resp) := hev
      refine ⟨EventKind.offer_declined :: resp, by simp [hlen], ?_, ?_⟩
      · intro k hk
        rcases List.mem_cons.mp hk with hk | hk
        · exact Or.inr hk
        · exact hmem k hk
      · simp [List.zip_cons_cons, collectBlocks, hev2]
        rfl
    · simp only [collectLoop, hc, hrec] at h ⊢
      obtain ⟨resp, hlen, hmem, hev⟩ := ih (by rw [hrec]; exact h)
      rw [hrec] at hev
      have hev2 : evs2 = collectBlocks (rest.zip resp) := hev
      refine ⟨EventKind.offer_received :: resp, by simp [hlen], ?_, ?_⟩
      · intro k hk
        rcases List.mem_cons.mp hk with hk | hk
        · exact Or.inl hk
        · exact hmem k hk
      · simp [List.zip_cons_cons, collectBlocks, hev2]
        rfl
    · simp only [collectLoop, hc] at h
      simp at h

theorem collectLoop_event_kinds (rt : String) :
    ∀ ps : List Participant, ∀ e ∈ (collectLoop rt ps).1,
      e.1 = EventKind.agent_analyzing ∨ e.1 = EventKind.offer_received ∨
        e.1 = EventKind.offer_declined := by
  intro ps
  induction ps with
  | nil => intro e he; simp [collectLoop] at he
  | cons p rest ih =>
    intro e he
    rcases hrec : collectLoop rt rest with ⟨evs2, offers2, exn2⟩
    rw [hrec] at ih
    rcases collectOne_cases rt p with hc | ⟨o, hc⟩ | ⟨m, hc⟩
    · simp only [collectLoop, hc, hrec, List.mem_append, List.mem_cons,
        List.not_mem_nil, or_false] at he
      rcases he with (he | he) | he
      · rw [he]
        exact Or.inl rfl
      · rw [he]
        exact Or.inr (Or.inr rfl)
      · exact ih e he
    · simp only [collectLoop, hc, hrec, List.mem_append, List.mem_cons,
        List.not_mem_nil, or_false] at he
      rcases he with (he | he) | he
      · rw [he]
        exact Or.inl rfl
      · rw [he]
        exact Or.inr (Or.inl rfl)
      · exact ih e he
    · simp only [collectLoop, hc, List.mem_cons, List.not_mem_nil, or_false] at he
      rw [he]
      exact Or.inl rfl

theorem negotiateLoop_event_kinds (parts : List Participant) :
    ∀ os : List ResourceOffer, ∀ e ∈ (negotiateLoop parts os).1,
      e.1 = EventKind.offer_adjusted := by
  intro os
  induction os with
  | nil => intro e he; simp [negotiateLoop] at he
  | cons o rest ih =>
    intro e he
    rcases hrec : negotiateLoop parts rest with ⟨evs2, exn2⟩
    rw [hrec] at ih
    cases hf : parts.find? (fun q => q.hospital_id == o.hospital_id) with
    | none =>
      simp only [negotiateLoop, hf] at he
      simp at he
    | some p =>
      rcases hn : negotiate_offer p.negotiateResult with _ | b | n | q | s | l | fields
      · simp only [negotiateLoop, hf, hn] at he
        simp at he
      · simp only [negotiateLoop, hf, hn] at he
        simp at he
      · simp only [negotiateLoop, hf, hn] at he
        simp at he
      · simp only [negotiateLoop, hf, hn] at he
        simp at he
      · simp only [negotiateLoop, hf, hn] at he
        simp at he
      · simp only [negotiateLoop, hf, hn] at he
        simp at he
      · simp only [negotiateLoop, hf, hn, hrec] at he
        rcases List.mem_append.mp he with he | he
        · split at he
          · simp only [List.mem_singleton] at he
            rw [he]
          · simp at he
        · exact ih e he

theorem negotiateLoop_none_count (parts : List Participant) :
    ∀ os : List ResourceOffer, (negotiateLoop parts os).2 = none →
      (negotiateLoop parts os).1.length = os.countP (adjustRequested parts) := by
  intro os
  induction os with
  | nil => intro _; rfl
  | cons o rest ih =>
    intro h
    rcases hrec : negotiateLoop parts rest with ⟨evs2, exn2⟩
    rw [hrec] at ih
    cases hf : parts.find? (fun q => q.hospital_id == o.hospital_id) with
    | none =>
      simp only [negotiateLoop, hf] at h
      simp at h
    | some p =>
      rcases hn : negotiate_offer p.negotiateResult with _ | b | n | q | s | l | fields
      · simp only [negotiateLoop, hf, hn] at h
        simp at h
      · simp only [negotiateLoop, hf, hn] at h
        simp at h
      · simp only [negotiateLoop, hf, hn] at h
        simp at h
      · simp only [negotiateLoop, hf, hn] at h
        simp at h
      · simp only [negotiateLoop, hf, hn] at h
        simp at h
      · simp only [negotiateLoop, hf, hn] at h
        simp at h
      · simp only [negotiateLoop, hf, hn, hrec] at h ⊢
        have hadj : adjustRequested parts o = optTruthy (fields.lookup "adjust_offer") := by
          simp only [adjustRequested, hf, hn]
        rw [List.countP_cons, hadj, List.length_append, ih h]
        cases hopt : optTruthy (fields.lookup "adjust_offer") <;> simp [hopt]
        omega

theorem run_shape (parts : List Participant) (rt : String) (dec : OracleResult) :
    (∃ cev offs m, collectLoop rt parts = (cev, offs, some m) ∧
      initiate_negotiation parts rt dec =
        ⟨[(EventKind.negotiation_initiated, ""), (EventKind.broadcasting_request, "")] ++ cev,
         [Status.initiated, Status.broadcasting, Status.collecting_responses],
         offs, Status.collecting_responses, some m, none⟩) ∨
    (∃ cev offs nev m, collectLoop rt parts = (cev, offs, none) ∧ 1 < offs.length ∧
      negotiateLoop parts offs = (nev, some m) ∧
      initiate_negotiation parts rt dec =
        ⟨[(EventKind.negotiation_initiated, ""), (EventKind.broadcasting_request, "")] ++ cev ++
           [(EventKind.negotiation_round_started, "")] ++ nev,
         [Status.initiated, Status.broadcasting, Status.collecting_responses] ++
           [Status.negotiating],
         offs, Status.negotiating, some m, none⟩) ∨
    (∃ cev offs nev m, collectLoop rt parts = (cev, offs, none) ∧ 1 < offs.length ∧
      negotiateLoop parts offs = (nev, none) ∧ make_decision offs dec = .error m ∧
      initiate_negotiation parts rt dec =
        ⟨[(EventKind.negotiation_initiated, ""), (EventKind.broadcasting_request, "")] ++ cev ++
           [(EventKind.negotiation_round_started, "")] ++ nev ++
           [(EventKind.making_decision, "")],
         [Status.initiated, Status.broadcasting, Status.collecting_responses] ++
           [Status.negotiating] ++ [Status.deciding],
         offs, Status.deciding, some m, none⟩) ∨
    (∃ cev offs nev j, collectLoop rt parts = (cev, offs, none) ∧ 1 < offs.length ∧
      negotiateLoop parts offs = (nev, none) ∧ make_decision offs dec = .ok j ∧
      initiate_negotiation parts rt dec =
        ⟨[(EventKind.negotiation_initiated, ""), (EventKind.broadcasting_request, "")] ++ cev ++
           [(EventKind.negotiation_round_started, "")] ++ nev ++
           [(EventKind.making_decision, ""), (EventKind.negotiation_completed, "")],
         [Status.initiated, Status.broadcasting, Status.collecting_responses] ++
           [Status.negotiating] ++ [Status.deciding, Status.completed],
         offs, Status.completed, none, some j⟩) ∨
    (∃ cev offs m, collectLoop rt parts = (cev, offs, none) ∧ ¬ 1 < offs.length ∧
      make_decision offs dec = .error m ∧
      initiate_negotiation parts rt dec =
        ⟨[(EventKind.negotiation_initiated, ""), (EventKind.broadcasting_request, "")] ++ cev ++
           [(EventKind.making_decision, "")],
         [Status.initiated, Status.broadcasting, Status.collecting_responses] ++
           [Status.deciding],
         offs, Status.deciding, some m, none⟩) ∨
    (∃ cev offs j, collectLoop rt parts = (cev, offs, none) ∧ ¬ 1 < offs.length ∧
      make_decision offs dec = .ok j ∧
      initiate_negotiation parts rt dec =
        ⟨[(EventKind.negotiation_initiated, ""), (EventKind.broadcasting_request, "")] ++ cev ++
           [(EventKind.making_decision, ""), (EventKind.negotiation_completed, "")],
         [Status.initiated, Status.broadcasting, Status.collecting_responses] ++
           [Status.deciding, Status.completed],
         offs, Status.completed, none, some j⟩) := by
  rcases hcol : collectLoop rt parts with ⟨cev, offs, exn⟩
  cases exn with
  | some m =>
    left
    refine ⟨cev, offs, m, rfl, ?_⟩
    simp only [initiate_negotiation, hcol]
  | none =>
    by_cases hlen : 1 < offs.length
    · rcases hneg : negotiateLoop parts offs with ⟨nev, nexn⟩
      cases nexn with
      | some m =>
        right; left
        refine ⟨cev, offs, nev, m, rfl, hlen, hneg, ?_⟩
        simp only [initiate_negotiation, hcol, hneg, if_pos hlen]
      | none =>
        rcases hdec : make_decision offs dec with m | j
        · right; right; left
          refine ⟨cev, offs, nev, m, rfl, hlen, hneg, hdec, ?_⟩
          simp only [initiate_negotiation, hcol, hneg, if_pos hlen, finishRun, hdec]
        · right; right; right; left
          refine ⟨cev, offs, nev, j, rfl, hlen, hneg, hdec, ?_⟩
          simp only [initiate_negotiation, hcol, hneg, if_pos hlen, finishRun, hdec]
    · rcases hdec : make_decision offs dec with m | j
      · right; right; right; right; left
        refine ⟨cev, offs, m, rfl, hlen, hdec, ?_⟩
        simp only [initiate_negotiation, hcol, if_neg hlen, finishRun, hdec]
      · right; right; right; right; right
        refine ⟨cev, offs, j, rfl, hlen, hdec, ?_⟩
        simp only [initiate_negotiation, hcol, if_neg hlen, finishRun, hdec]

/-- C5: for every negotiation run, the session statuses are assigned in
strictly increasing phase order (so there is never a backward
transition), the first status is initiated, and the failed status is
never observed; in particular a run that reaches negotiating is never
observed back in collecting_responses. -/
theorem C5_status_monotonic (parts : List Participant) (rt : String)
    (dec : OracleResult) :
    List.Pairwise (fun a b : Status => a.phaseIdx < b.phaseIdx)
      (initiate_negotiation parts rt dec).statusTrace ∧
    (initiate_negotiation parts rt dec).statusTrace.head? = some Status.initiated ∧
    Status.failed ∉ (initiate_negotiation parts rt dec).statusTrace := by
  rcases run_shape parts rt dec with
      ⟨cev, offs, m, hcol, hrun⟩ | ⟨cev, offs, nev, m, hcol, hlen, hneg, hrun⟩ |
      ⟨cev, offs, nev, m, hcol, hlen, hneg, hdec, hrun⟩ |
      ⟨cev, offs, nev, j, hcol, hlen, hneg, hdec, hrun⟩ |
      ⟨cev, offs, m, hcol, hlen, hdec, hrun⟩ |
      ⟨cev, offs, j, hcol, hlen, hdec, hrun⟩ <;>
    rw [hrun] <;> dsimp only <;>
      exact ⟨by decide, by decide, by decide⟩

/-- C6: when every participant declines (so zero offers are collected),
the run still completes: the final status is completed, no exception
occurs, and the stored decision is the no-offers failure decision with
success = false, a null outcome (no selected offers or contract data in
it), and the non-empty three-element remediation suggestion list. -/
theorem C6_all_decline_completes (parts : List Participant) (rt : String)
    (dec : OracleResult) (h : parts.all declinesB = true) :
    (initiate_negotiation parts rt dec).offers = [] ∧
    (initiate_negotiation parts rt dec).finalStatus = Status.completed ∧
    (initiate_negotiation parts rt dec).exn = none ∧
    (initiate_negotiation parts rt dec).final_agreement = some noOffersDecision ∧
    noOffersDecision.getField "success" = some (.bool false) ∧
    noOffersDecision.getField "recommendations" =
      some (.arr [.str "Try increasing budget", .str "Reduce quantity",
                  .str "Extend timeline"]) ∧
    ([Json.str "Try increasing budget", Json.str "Reduce quantity",
      Json.str "Extend timeline"] : List Json) ≠ [] := by
  have hall : ∀ p ∈ parts, declinesB p = true := by
    intro p hp
    exact List.all_eq_true.mp h p hp
  obtain ⟨hoffs, hexn⟩ := collectLoop_all_decline rt parts hall
  rcases run_shape parts rt dec with
      ⟨cev, offs, m, hcol, hrun⟩ | ⟨cev, offs, nev, m, hcol, hlen, hneg, hrun⟩ |
      ⟨cev, offs, nev, m, hcol, hlen, hneg, hdec, hrun⟩ |
      ⟨cev, offs, nev, j, hcol, hlen, hneg, hdec, hrun⟩ |
      ⟨cev, offs, m, hcol, hlen, hdec, hrun⟩ |
      ⟨cev, offs, j, hcol, hlen, hdec, hrun⟩
  · rw [hcol] at hexn
    simp at hexn
  · rw [hcol] at hoffs
    simp only at hoffs
    rw [hoffs] at hlen
    simp at hlen
  · rw [hcol] at hoffs
    simp only at hoffs
    rw [hoffs] at hlen
    simp at hlen
  · rw [hcol] at hoffs
    simp only at hoffs
    rw [hoffs] at hlen
    simp at hlen
  · rw [hcol] at hoffs
    simp only at hoffs
    subst hoffs
    simp [make_decision] at hdec
  · rw [hcol] at hoffs
    simp only at hoffs
    subst hoffs
    simp only [make_decision, List.isEmpty_nil, if_pos] at hdec
    rw [hrun]
    refine ⟨rfl, rfl, rfl, ?_, rfl, rfl, by simp⟩
    injection hdec with hj
    dsimp only
    rw [← hj]

/-- C6 witness: two participants whose oracle calls fail (timeout and
invalid JSON) both decline, and the run completes with the no-offers
decision. -/
theorem C6_all_decline_completes_witness :
    ([⟨"HOSP_B", "Max Super Specialty Hospital", .failure "timeout", .failure ""⟩,
      ⟨"HOSP_C", "Fortis Medical Centre", .badJson "not json", .failure ""⟩] :
        List Participant).all declinesB = true ∧
    (initiate_negotiation
      [⟨"HOSP_B", "Max Super Specialty Hospital", .failure "timeout", .failure ""⟩,
       ⟨"HOSP_C", "Fortis Medical Centre", .badJson "not json", .failure ""⟩]
      "ventilators" (.failure "decider down")).finalStatus = Status.completed ∧
    (initiate_negotiation
      [⟨"HOSP_B", "Max Super Specialty Hospital", .failure "timeout", .failure ""⟩,
       ⟨"HOSP_C", "Fortis Medical Centre", .badJson "not json", .failure ""⟩]
      "ventilators" (.failure "decider down")).final_agreement =
        some noOffersDecision :=
  ⟨by decide,
   (C6_all_decline_completes _ "ventilators" (.failure "decider down")
     (by decide)).2.1,
   (C6_all_decline_completes _ "ventilators" (.failure "decider down")
     (by decide)).2.2.2.1⟩

theorem streamEvents_of_exn (r : RunOutcome) (m : String) (h : r.exn = some m) :
    streamEvents r = r.events ++ [(EventKind.error, m)] := by
  unfold streamEvents
  rw [h]

theorem streamEvents_of_none (r : RunOutcome) (h : r.exn = none) :
    streamEvents r = r.events := by
  unfold streamEvents
  rw [h]

theorem countP_terminal_zero (l : List Event)
    (h : ∀ e ∈ l, e.1 ≠ EventKind.negotiation_completed ∧ e.1 ≠ EventKind.error) :
    l.countP isTerminal = 0 := by
  rw [List.countP_eq_zero]
  intro e he
  obtain ⟨h1, h2⟩ := h e he
  simp [isTerminal, h1, h2]

theorem countP_adjusted_zero (l : List Event)
    (h : ∀ e ∈ l, e.1 ≠ EventKind.offer_adjusted) :
    l.countP (fun e => e.1 == EventKind.offer_adjusted) = 0 := by
  rw [List.countP_eq_zero]
  intro e he
  simp [h e he]

theorem getLast_concat2 (l : List Event) (a b : Event) :
    (l ++ [a, b]).getLast? = some b := by
  rw [show ([a, b] : List Event) = [a] ++ [b] from rfl, ← List.append_assoc]
  exact List.getLast?_concat _

theorem collect_countP_terminal (rt : String) (parts : List Participant)
    (cev : List Event) (offs : List ResourceOffer) (x : Option String)
    (hcol : collectLoop rt parts = (cev, offs, x)) :
    cev.countP isTerminal = 0 := by
  refine countP_terminal_zero cev (fun e he => ?_)
  have hk := collectLoop_event_kinds rt parts
  rw [hcol] at hk
  rcases hk e he with h | h | h <;> rw [h] <;> exact ⟨by decide, by decide⟩

theorem neg_countP_terminal (parts : List Participant) (offs : List ResourceOffer)
    (nev : List Event) (x : Option String)
    (hneg : negotiateLoop parts offs = (nev, x)) :
    nev.countP isTerminal = 0 := by
  refine countP_terminal_zero nev (fun e he => ?_)
  have hk := negotiateLoop_event_kinds parts offs
  rw [hneg] at hk
  rw [hk e he]
  exact ⟨by decide, by decide⟩

/-- C4, counterexample to the claim as stated: a participant whose
oracle returns valid JSON with a truthy can_help but no
quantity_available makes a KeyError escape the collection phase. The
stream does end with a single error event carrying the message, but the
session is left in collecting_responses; it never transitions to the
failed status the claim requires. -/
theorem C4_counterexample_no_failed_status :
    (initiate_negotiation
      [⟨"HOSP_B", "Max Super Specialty Hospital",
        .ok (.obj [("can_help", .bool true)]), .failure ""⟩]
      "ventilators" (.failure "down")).exn = some "KeyError: quantity_available" ∧
    (initiate_negotiation
      [⟨"HOSP_B", "Max Super Specialty Hospital",
        .ok (.obj [("can_help", .bool true)]), .failure ""⟩]
      "ventilators" (.failure "down")).finalStatus = Status.collecting_responses ∧
    (initiate_negotiation
      [⟨"HOSP_B", "Max Super Specialty Hospital",
        .ok (.obj [("can_help", .bool true)]), .failure ""⟩]
      "ventilators" (.failure "down")).finalStatus ≠ Status.failed ∧
    (streamEvents (initiate_negotiation
      [⟨"HOSP_B", "Max Super Specialty Hospital",
        .ok (.obj [("can_help", .bool true)]), .failure ""⟩]
      "ventilators" (.failure "down"))).getLast? =
        some (EventKind.error, "KeyError: quantity_available") :=
  ⟨rfl, rfl, by decide, rfl⟩

/-- C4 as amended: every progress stream carries exactly one terminal
event; an exception escaping the generator - a KeyError or
AttributeError during collection, an AttributeError in the negotiating
loop, or a TypeError while `_make_decision` builds its prompt - is
converted at the stream boundary into a final error event carrying the
exception message, with the session left in the phase where the fault
occurred (collecting_responses, negotiating or deciding; never set to
failed, and not completed); a fault-free run ends with
negotiation_completed. -/
theorem C4_terminal_event_guarantee (parts : List Participant) (rt : String)
    (dec : OracleResult) :
    (streamEvents (initiate_negotiation parts rt dec)).countP isTerminal = 1 ∧
    (∀ s ∈ (initiate_negotiation parts rt dec).statusTrace, s ≠ Status.failed) ∧
    (initiate_negotiation parts rt dec).finalStatus ≠ Status.failed ∧
    (∀ m, (initiate_negotiation parts rt dec).exn = some m →
      streamEvents (initiate_negotiation parts rt dec) =
        (initiate_negotiation parts rt dec).events ++ [(EventKind.error, m)] ∧
      (initiate_negotiation parts rt dec).finalStatus ≠ Status.completed) ∧
    ((initiate_negotiation parts rt dec).exn = none →
      (streamEvents (initiate_negotiation parts rt dec)).getLast? =
        some (EventKind.negotiation_completed, "")) := by
  rcases run_shape parts rt dec with
      ⟨cev, offs, m, hcol, hrun⟩ | ⟨cev, offs, nev, m, hcol, hlen, hneg, hrun⟩ |
      ⟨cev, offs, nev, m, hcol, hlen, hneg, hdec, hrun⟩ |
      ⟨cev, offs, nev, j, hcol, hlen, hneg, hdec, hrun⟩ |
      ⟨cev, offs, m, hcol, hlen, hdec, hrun⟩ |
      ⟨cev, offs, j, hcol, hlen, hdec, hrun⟩
  · have hz := collect_countP_terminal rt parts cev offs (some m) hcol
    rw [hrun]
    refine ⟨?_, by dsimp only; decide, by dsimp only; decide, ?_, ?_⟩
    · rw [streamEvents_of_exn _ m rfl]
      simp only [List.countP_append, hz]
      rfl
    · intro m2 hm2
      have hm : m = m2 := by simpa using hm2
      subst hm
      exact ⟨streamEvents_of_exn _ m rfl, by dsimp only; decide⟩
    · intro hnone
      simp at hnone
  · have hz := collect_countP_terminal rt parts cev offs none hcol
    have hz2 := neg_countP_terminal parts offs nev (some m) hneg
    rw [hrun]
    refine ⟨?_, by dsimp only; decide, by dsimp only; decide, ?_, ?_⟩
    · rw [streamEvents_of_exn _ m rfl]
      simp only [List.countP_append, hz, hz2]
      rfl
    · intro m2 hm2
      have hm : m = m2 := by simpa using hm2
      subst hm
      exact ⟨streamEvents_of_exn _ m rfl, by dsimp only; decide⟩
    · intro hnone
      simp at hnone
  · have hz := collect_countP_terminal rt parts cev offs none hcol
    have hz2 := neg_countP_terminal parts offs nev none hneg
    rw [hrun]
    refine ⟨?_, by dsimp only; decide, by dsimp only; decide, ?_, ?_⟩
    · rw [streamEvents_of_exn _ m rfl]
      simp only [List.countP_append, hz, hz2]
      rfl
    · intro m2 hm2
      have hm : m = m2 := by simpa using hm2
      subst hm
      exact ⟨streamEvents_of_exn _ m rfl, by dsimp only; decide⟩
    · intro hnone
      simp at hnone
  · have hz := collect_countP_terminal rt parts cev offs none hcol
    have hz2 := neg_countP_terminal parts offs nev none hneg
    rw [hrun]
    refine ⟨?_, by dsimp only; decide, by dsimp only; decide, ?_, ?_⟩
    · rw [streamEvents_of_none _ rfl]
      simp only [List.countP_append, hz, hz2]
      rfl
    · intro m2 hm2
      simp at hm2
    · intro _
      rw [streamEvents_of_none _ rfl]
      exact getLast_concat2 _ _ _
  · have hz := collect_countP_terminal rt parts cev offs none hcol
    rw [hrun]
    refine ⟨?_, by dsimp only; decide, by dsimp only; decide, ?_, ?_⟩
    · rw [streamEvents_of_exn _ m rfl]
      simp only [List.countP_append, hz]
      rfl
    · intro m2 hm2
      have hm : m = m2 := by simpa using hm2
      subst hm
      exact ⟨streamEvents_of_exn _ m rfl, by dsimp only; decide⟩
    · intro hnone
      simp at hnone
  · have hz := collect_countP_terminal rt parts cev offs none hcol
    rw [hrun]
    refine ⟨?_, by dsimp only; decide, by dsimp only; decide, ?_, ?_⟩
    · rw [streamEvents_of_none _ rfl]
      simp only [List.countP_append, hz]
      rfl
    · intro m2 hm2
      simp at hm2
    · intro _
      rw [streamEvents_of_none _ rfl]
      exact getLast_concat2 _ _ _

/-- C4 witness: the amended guarantee applied to three runs: a KeyError
fault during collection, a TypeError fault in the deciding phase (string
quantity and price make the decision prompt's multiplication raise,
leaving the session in deciding), and a fault-free run. -/
theorem C4_terminal_event_guarantee_witness :
    (initiate_negotiation
      [⟨"HOSP_B", "Max", .ok (.obj [("can_help", .bool true)]), .failure ""⟩]
      "v" (.failure "d")).exn = some "KeyError: quantity_available" ∧
    streamEvents (initiate_negotiation
      [⟨"HOSP_B", "Max", .ok (.obj [("can_help", .bool true)]), .failure ""⟩]
      "v" (.failure "d")) =
      (initiate_negotiation
        [⟨"HOSP_B", "Max", .ok (.obj [("can_help", .bool true)]), .failure ""⟩]
        "v" (.failure "d")).events ++
        [(EventKind.error, "KeyError: quantity_available")] ∧
    (initiate_negotiation
      [⟨"HOSP_B", "Max", .ok (.obj [("can_help", .bool true),
          ("quantity_available", .str "5"), ("proposed_price_per_unit", .str "10")]),
        .failure ""⟩]
      "v" (.failure "d")).exn =
        some "TypeError: unsupported operand type(s) for *" ∧
    (initiate_negotiation
      [⟨"HOSP_B", "Max", .ok (.obj [("can_help", .bool true),
          ("quantity_available", .str "5"), ("proposed_price_per_unit", .str "10")]),
        .failure ""⟩]
      "v" (.failure "d")).finalStatus = Status.deciding ∧
    (initiate_negotiation
      [⟨"HOSP_B", "Max", .ok (.obj [("can_help", .bool true),
          ("quantity_available", .str "5"), ("proposed_price_per_unit", .str "10")]),
        .failure ""⟩]
      "v" (.failure "d")).finalStatus ≠ Status.completed ∧
    (initiate_negotiation [⟨"HOSP_D", "Decl", .failure "t", .failure ""⟩]
      "v" (.failure "d")).exn = none ∧
    (streamEvents (initiate_negotiation
      [⟨"HOSP_D", "Decl", .failure "t", .failure ""⟩] "v" (.failure "d"))).getLast? =
      some (EventKind.negotiation_completed, "") :=
  ⟨rfl,
   ((C4_terminal_event_guarantee
      [⟨"HOSP_B", "Max", .ok (.obj [("can_help", .bool true)]), .failure ""⟩]
      "v" (.failure "d")).2.2.2.1 "KeyError: quantity_available" rfl).1,
   rfl,
   rfl,
   ((C4_terminal_event_guarantee
      [⟨"HOSP_B", "Max", .ok (.obj [("can_help", .bool true),
          ("quantity_available", .str "5"), ("proposed_price_per_unit", .str "10")]),
        .failure ""⟩]
      "v" (.failure "d")).2.2.2.1
      "TypeError: unsupported operand type(s) for *" rfl).2,
   rfl,
   (C4_terminal_event_guarantee
      [⟨"HOSP_D", "Decl", .failure "t", .failure ""⟩]
      "v" (.failure "d")).2.2.2.2 rfl⟩

theorem run_offers (parts : List Participant) (rt : String) (dec : OracleResult) :
    (initiate_negotiation parts rt dec).offers = (collectLoop rt parts).2.1 := by
  rcases run_shape parts rt dec with
      ⟨cev, offs, m, hcol, hrun⟩ | ⟨cev, offs, nev, m, hcol, hlen, hneg, hrun⟩ |
      ⟨cev, offs, nev, m, hcol, hlen, hneg, hdec, hrun⟩ |
      ⟨cev, offs, nev, j, hcol, hlen, hneg, hdec, hrun⟩ |
      ⟨cev, offs, m, hcol, hlen, hdec, hrun⟩ |
      ⟨cev, offs, j, hcol, hlen, hdec, hrun⟩ <;>
    rw [hrun, hcol]

theorem collectLoop_map_negotiate (rt : String) (f : Participant → OracleResult) :
    ∀ ps : List Participant,
      collectLoop rt (ps.map fun p =>
        Participant.mk p.hospital_id p.hospital_name p.analyzeResult (f p)) =
      collectLoop rt ps := by
  intro ps
  induction ps with
  | nil => rfl
  | cons p rest ih =>
    have hone : collectOne rt
        (Participant.mk p.hospital_id p.hospital_name p.analyzeResult (f p)) =
        collectOne rt p := rfl
    simp only [List.map_cons, collectLoop, hone, ih]

/-- C7, counterexample to the in-place mutation part of the claim: a run
with two offers in which the first agent requests an adjustment to price
500 emits exactly one offer_adjusted event, yet the session's stored
offers keep their original prices 1000 and 2000 and their original
(empty) condition lists — the offer is not mutated. -/
theorem C7_counterexample_no_mutation :
    (initiate_negotiation
      [⟨"HOSP_B", "Max", .ok (.obj [("can_help", .bool true),
          ("quantity_available", .int 5), ("proposed_price_per_unit", .int 1000)]),
        .ok (.obj [("adjust_offer", .bool true), ("new_price_per_unit", .int 500)])⟩,
       ⟨"HOSP_C", "Fortis", .ok (.obj [("can_help", .bool true),
          ("quantity_available", .int 3), ("proposed_price_per_unit", .int 2000)]),
        .ok noAdjust⟩]
      "ventilators" (.failure "x")).events.countP
        (fun e => e.1 == EventKind.offer_adjusted) = 1 ∧
    (initiate_negotiation
      [⟨"HOSP_B", "Max", .ok (.obj [("can_help", .bool true),
          ("quantity_available", .int 5), ("proposed_price_per_unit", .int 1000)]),
        .ok (.obj [("adjust_offer", .bool true), ("new_price_per_unit", .int 500)])⟩,
       ⟨"HOSP_C", "Fortis", .ok (.obj [("can_help", .bool true),
          ("quantity_available", .int 3), ("proposed_price_per_unit", .int 2000)]),
        .ok noAdjust⟩]
      "ventilators" (.failure "x")).offers.map ResourceOffer.price_per_unit =
      [Json.int 1000, Json.int 2000] ∧
    ([Json.int 1000, Json.int 2000] : List Json) ≠ [Json.int 500, Json.int 2000] ∧
    (initiate_negotiation
      [⟨"HOSP_B", "Max", .ok (.obj [("can_help", .bool true),
          ("quantity_available", .int 5), ("proposed_price_per_unit", .int 1000)]),
        .ok (.obj [("adjust_offer", .bool true), ("new_price_per_unit", .int 500)])⟩,
       ⟨"HOSP_C", "Fortis", .ok (.obj [("can_help", .bool true),
          ("quantity_available", .int 3), ("proposed_price_per_unit", .int 2000)]),
        .ok noAdjust⟩]
      "ventilators" (.failure "x")).offers.map ResourceOffer.conditions =
      [Json.arr [], Json.arr []] := by
  refine ⟨rfl, rfl, ?_, rfl⟩
  intro h
  have h1000 : (Json.int 1000) = (Json.int 500) := by
    injection h
  have : (1000 : ℤ) = 500 := by injection h1000
  norm_num at this

/-- C7 as amended: the negotiating phase is entered exactly when more
than one offer was collected; when the run is fault-free, one
offer_adjusted event is emitted per offer whose agent requests an
adjustment (and none when the phase is skipped); but the session's offer
list is exactly the list built during collection — it does not depend on
the negotiate-phase oracle outcomes or the decision oracle, so offers
are never mutated in any phase. -/
theorem C7_adjust_events_offers_immutable (parts : List Participant) (rt : String)
    (dec : OracleResult) :
    (initiate_negotiation parts rt dec).offers = (collectLoop rt parts).2.1 ∧
    (Status.negotiating ∈ (initiate_negotiation parts rt dec).statusTrace ↔
      ((collectLoop rt parts).2.2 = none ∧
        1 < (collectLoop rt parts).2.1.length)) ∧
    ((initiate_negotiation parts rt dec).exn = none →
      (initiate_negotiation parts rt dec).events.countP
          (fun e => e.1 == EventKind.offer_adjusted) =
        (if 1 < (collectLoop rt parts).2.1.length then
          (collectLoop rt parts).2.1.countP (adjustRequested parts) else 0)) ∧
    (∀ dec2 : OracleResult, ∀ f : Participant → OracleResult,
      (initiate_negotiation (parts.map fun p =>
          Participant.mk p.hospital_id p.hospital_name p.analyzeResult (f p))
        rt dec2).offers =
      (initiate_negotiation parts rt dec).offers) := by
  refine ⟨run_offers parts rt dec, ?_, ?_, ?_⟩
  · rcases run_shape parts rt dec with
        ⟨cev, offs, m, hcol, hrun⟩ | ⟨cev, offs, nev, m, hcol, hlen, hneg, hrun⟩ |
        ⟨cev, offs, nev, m, hcol, hlen, hneg, hdec, hrun⟩ |
        ⟨cev, offs, nev, j, hcol, hlen, hneg, hdec, hrun⟩ |
        ⟨cev, offs, m, hcol, hlen, hdec, hrun⟩ |
        ⟨cev, offs, j, hcol, hlen, hdec, hrun⟩
    · rw [hrun, hcol]
      dsimp only
      simp
    · rw [hrun, hcol]
      dsimp only
      simp [hlen]
    · rw [hrun, hcol]
      dsimp only
      simp [hlen]
    · rw [hrun, hcol]
      dsimp only
      simp [hlen]
    · rw [hrun, hcol]
      dsimp only
      simp [hlen]
    · rw [hrun, hcol]
      dsimp only
      simp [hlen]
  · rcases run_shape parts rt dec with
        ⟨cev, offs, m, hcol, hrun⟩ | ⟨cev, offs, nev, m, hcol, hlen, hneg, hrun⟩ |
        ⟨cev, offs, nev, m, hcol, hlen, hneg, hdec, hrun⟩ |
        ⟨cev, offs, nev, j, hcol, hlen, hneg, hdec, hrun⟩ |
        ⟨cev, offs, m, hcol, hlen, hdec, hrun⟩ |
        ⟨cev, offs, j, hcol, hlen, hdec, hrun⟩
    · intro hx
      rw [hrun] at hx
      simp at hx
    · intro hx
      rw [hrun] at hx
      simp at hx
    · intro hx
      rw [hrun] at hx
      simp at hx
    · intro _
      have hzc : cev.countP (fun e => e.1 == EventKind.offer_adjusted) = 0 := by
        refine countP_adjusted_zero cev (fun e he => ?_)
        have hk := collectLoop_event_kinds rt parts
        rw [hcol] at hk
        rcases hk e he with h | h | h <;> rw [h] <;> decide
      have hcnt := negotiateLoop_none_count parts offs
      rw [hneg] at hcnt
      have hcnt2 : nev.length = offs.countP (adjustRequested parts) := hcnt rfl
      have hnev : nev.countP (fun e => e.1 == EventKind.offer_adjusted) = nev.length := by
        rw [List.countP_eq_length]
        intro e he
        have hk := negotiateLoop_event_kinds parts offs
        rw [hneg] at hk
        simp [hk e he]
      have e1 : ([(EventKind.negotiation_initiated, ""),
          (EventKind.broadcasting_request, "")] : List Event).countP
            (fun e => e.1 == EventKind.offer_adjusted) = 0 := rfl
      have e2 : ([(EventKind.negotiation_round_started, "")] : List Event).countP
            (fun e => e.1 == EventKind.offer_adjusted) = 0 := rfl
      have e3 : ([(EventKind.making_decision, ""),
          (EventKind.negotiation_completed, "")] : List Event).countP
            (fun e => e.1 == EventKind.offer_adjusted) = 0 := rfl
      rw [hrun, hcol]
      dsimp only
      rw [if_pos hlen]
      simp only [List.countP_append, hzc, hnev, hcnt2, e1, e2, e3]
      omega
    · intro hx
      rw [hrun] at hx
      simp at hx
    · intro _
      have hzc : cev.countP (fun e => e.1 == EventKind.offer_adjusted) = 0 := by
        refine countP_adjusted_zero cev (fun e he => ?_)
        have hk := collectLoop_event_kinds rt parts
        rw [hcol] at hk
        rcases hk e he with h | h | h <;> rw [h] <;> decide
      rw [hrun, hcol]
      dsimp only
      rw [if_neg hlen]
      simp only [List.countP_append, hzc]
      rfl
  · intro dec2 f
    rw [run_offers _ rt dec2, run_offers parts rt dec, collectLoop_map_negotiate]

/-- C7 witness: the amended theorem applied to the two-offer run of the
counterexample; the fault-free run emits exactly one adjusted event,
matching the single adjustment request. -/
theorem C7_adjust_events_offers_immutable_witness :
    (initiate_negotiation
      [⟨"HOSP_B", "Max", .ok (.obj [("can_help", .bool true),
          ("quantity_available", .int 5), ("proposed_price_per_unit", .int 1000)]),
        .ok (.obj [("adjust_offer", .bool true), ("new_price_per_unit", .int 500)])⟩,
       ⟨"HOSP_C", "Fortis", .ok (.obj [("can_help", .bool true),
          ("quantity_available", .int 3), ("proposed_price_per_unit", .int 2000)]),
        .ok noAdjust⟩]
      "ventilators" (.failure "x")).exn = none ∧
    (initiate_negotiation
      [⟨"HOSP_B", "Max", .ok (.obj [("can_help", .bool true),
          ("quantity_available", .int 5), ("proposed_price_per_unit", .int 1000)]),
        .ok (.obj [("adjust_offer", .bool true), ("new_price_per_unit", .int 500)])⟩,
       ⟨"HOSP_C", "Fortis", .ok (.obj [("can_help", .bool true),
          ("quantity_available", .int 3), ("proposed_price_per_unit", .int 2000)]),
        .ok noAdjust⟩]
      "ventilators" (.failure "x")).events.countP
        (fun e => e.1 == EventKind.offer_adjusted) =
      (if 1 < (collectLoop "ventilators"
          [⟨"HOSP_B", "Max", .ok (.obj [("can_help", .bool true),
              ("quantity_available", .int 5), ("proposed_price_per_unit", .int 1000)]),
            .ok (.obj [("adjust_offer", .bool true), ("new_price_per_unit", .int 500)])⟩,
           ⟨"HOSP_C", "Fortis", .ok (.obj [("can_help", .bool true),
              ("quantity_available", .int 3), ("proposed_price_per_unit", .int 2000)]),
            .ok noAdjust⟩]).2.1.length then
        (collectLoop "ventilators"
          [⟨"HOSP_B", "Max", .ok (.obj [("can_help", .bool true),
              ("quantity_available", .int 5), ("proposed_price_per_unit", .int 1000)]),
            .ok (.obj [("adjust_offer", .bool true), ("new_price_per_unit", .int 500)])⟩,
           ⟨"HOSP_C", "Fortis", .ok (.obj [("can_help", .bool true),
              ("quantity_available", .int 3), ("proposed_price_per_unit", .int 2000)]),
            .ok noAdjust⟩]).2.1.countP (adjustRequested
          [⟨"HOSP_B", "Max", .ok (.obj [("can_help", .bool true),
              ("quantity_available", .int 5), ("proposed_price_per_unit", .int 1000)]),
            .ok (.obj [("adjust_offer", .bool true), ("new_price_per_unit", .int 500)])⟩,
           ⟨"HOSP_C", "Fortis", .ok (.obj [("can_help", .bool true),
              ("quantity_available", .int 3), ("proposed_price_per_unit", .int 2000)]),
            .ok noAdjust⟩]) else 0) :=
  ⟨rfl,
   (C7_adjust_events_offers_immutable
      [⟨"HOSP_B", "Max", .ok (.obj [("can_help", .bool true),
          ("quantity_available", .int 5), ("proposed_price_per_unit", .int 1000)]),
        .ok (.obj [("adjust_offer", .bool true), ("new_price_per_unit", .int 500)])⟩,
       ⟨"HOSP_C", "Fortis", .ok (.obj [("can_help", .bool true),
          ("quantity_available", .int 3), ("proposed_price_per_unit", .int 2000)]),
        .ok noAdjust⟩]
      "ventilators" (.failure "x")).2.2.1 rfl⟩

/-- C1: in every fault-free run with three participants (no exception
escapes the generator in any phase - in particular no KeyError during
offer construction and no TypeError in the decision prompt), the emitted
events are exactly: negotiation_initiated, broadcasting_request, then
for each participant in iteration order agent_analyzing followed by
offer_received or offer_declined, then an optional block consisting of
negotiation_round_started followed by offer_adjusted events, then
making_decision and negotiation_completed. -/
theorem C1_event_order (p1 p2 p3 : Participant) (rt : String) (dec : OracleResult)
    (h : (initiate_negotiation [p1, p2, p3] rt dec).exn = none) :
    ∃ r1 r2 r3 : EventKind, ∃ neg : List Event,
      (r1 = EventKind.offer_received ∨ r1 = EventKind.offer_declined) ∧
      (r2 = EventKind.offer_received ∨ r2 = EventKind.offer_declined) ∧
      (r3 = EventKind.offer_received ∨ r3 = EventKind.offer_declined) ∧
      (neg = [] ∨ (∃ tail : List Event,
        neg = (EventKind.negotiation_round_started, "") :: tail ∧
        ∀ e ∈ tail, e.1 = EventKind.offer_adjusted)) ∧
      (initiate_negotiation [p1, p2, p3] rt dec).events =
        [(EventKind.negotiation_initiated, ""), (EventKind.broadcasting_request, ""),
         (EventKind.agent_analyzing, p1.hospital_name), (r1, p1.hospital_name),
         (EventKind.agent_analyzing, p2.hospital_name), (r2, p2.hospital_name),
         (EventKind.agent_analyzing, p3.hospital_name), (r3, p3.hospital_name)] ++
          neg ++
          [(EventKind.making_decision, ""), (EventKind.negotiation_completed, "")] := by
  rcases run_shape [p1, p2, p3] rt dec with
      ⟨cev, offs, m, hcol, hrun⟩ | ⟨cev, offs, nev, m, hcol, hlen, hneg, hrun⟩ |
      ⟨cev, offs, nev, m, hcol, hlen, hneg, hdec, hrun⟩ |
      ⟨cev, offs, nev, j, hcol, hlen, hneg, hdec, hrun⟩ |
      ⟨cev, offs, m, hcol, hlen, hdec, hrun⟩ |
      ⟨cev, offs, j, hcol, hlen, hdec, hrun⟩
  · rw [hrun] at h
    simp at h
  · rw [hrun] at h
    simp at h
  · rw [hrun] at h
    simp at h
  · obtain ⟨resp, hlen3, hmem, hev⟩ :=
      collectLoop_shape rt [p1, p2, p3] (by rw [hcol])
    rw [hcol] at hev
    have hev2 : cev = collectBlocks ([p1, p2, p3].zip resp) := hev
    rcases resp with _ | ⟨r1, _ | ⟨r2, _ | ⟨r3, _ | ⟨r4, rest⟩⟩⟩⟩ <;> simp at hlen3
    have hadj2 := negotiateLoop_event_kinds [p1, p2, p3] offs
    rw [hneg] at hadj2
    refine ⟨r1, r2, r3, (EventKind.negotiation_round_started, "") :: nev,
      hmem r1 (by simp), hmem r2 (by simp), hmem r3 (by simp),
      Or.inr ⟨nev, rfl, hadj2⟩, ?_⟩
    rw [hrun]
    dsimp only
    rw [hev2]
    simp [collectBlocks, List.zip_cons_cons]
  · rw [hrun] at h
    simp at h
  · obtain ⟨resp, hlen3, hmem, hev⟩ :=
      collectLoop_shape rt [p1, p2, p3] (by rw [hcol])
    rw [hcol] at hev
    have hev2 : cev = collectBlocks ([p1, p2, p3].zip resp) := hev
    rcases resp with _ | ⟨r1, _ | ⟨r2, _ | ⟨r3, _ | ⟨r4, rest⟩⟩⟩⟩ <;> simp at hlen3
    refine ⟨r1, r2, r3, [],
      hmem r1 (by simp), hmem r2 (by simp), hmem r3 (by simp), Or.inl rfl, ?_⟩
    rw [hrun]
    dsimp only
    rw [hev2]
    simp [collectBlocks, List.zip_cons_cons]

/-- C1 witness: a concrete fault-free three-participant run (all three
oracle calls fail, so all three decline) exhibits the event pattern. -/
theorem C1_event_order_witness :
    (initiate_negotiation
      [⟨"HOSP_A", "Apollo City Hospital", .failure "t1", .failure ""⟩,
       ⟨"HOSP_B", "Max Super Specialty Hospital", .failure "t2", .failure ""⟩,
       ⟨"HOSP_C", "Fortis Medical Centre", .badJson "oops", .failure ""⟩]
      "ventilators" (.failure "d")).exn = none ∧
    (∃ r1 r2 r3 : EventKind, ∃ neg : List Event,
      (r1 = EventKind.offer_received ∨ r1 = EventKind.offer_declined) ∧
      (r2 = EventKind.offer_received ∨ r2 = EventKind.offer_declined) ∧
      (r3 = EventKind.offer_received ∨ r3 = EventKind.offer_declined) ∧
      (neg = [] ∨ (∃ tail : List Event,
        neg = (EventKind.negotiation_round_started, "") :: tail ∧
        ∀ e ∈ tail, e.1 = EventKind.offer_adjusted)) ∧
      (initiate_negotiation
        [⟨"HOSP_A", "Apollo City Hospital", .failure "t1", .failure ""⟩,
         ⟨"HOSP_B", "Max Super Specialty Hospital", .failure "t2", .failure ""⟩,
         ⟨"HOSP_C", "Fortis Medical Centre", .badJson "oops", .failure ""⟩]
        "ventilators" (.failure "d")).events =
        [(EventKind.negotiation_initiated, ""), (EventKind.broadcasting_request, ""),
         (EventKind.agent_analyzing, "Apollo City Hospital"),
         (r1, "Apollo City Hospital"),
         (EventKind.agent_analyzing, "Max Super Specialty Hospital"),
         (r2, "Max Super Specialty Hospital"),
         (EventKind.agent_analyzing, "Fortis Medical Centre"),
         (r3, "Fortis Medical Centre")] ++
          neg ++
          [(EventKind.making_decision, ""), (EventKind.negotiation_completed, "")]) :=
  ⟨rfl,
   C1_event_order
     ⟨"HOSP_A", "Apollo City Hospital", .failure "t1", .failure ""⟩
     ⟨"HOSP_B", "Max Super Specialty Hospital", .failure "t2", .failure ""⟩
     ⟨"HOSP_C", "Fortis Medical Centre", .badJson "oops", .failure ""⟩
     "ventilators" (.failure "d") rfl⟩
